import Mathlib

/-!
Verification of the resumable research-workflow orchestrator.

The repository ships two driver files (`example_usage.py` and
`edu_research_test.py`); the orchestration engine they drive
(`open_deep_research.graph`) is part of the project but its sources are not
present, so the engine is modelled from the specification (data model §3,
Plan Stage §4.1, Research Loop §4.2, Orchestration State Machine §4.3,
Report Assembler §4.4, control surface §6).  The drivers themselves are
embedded directly from their Python sources.
-/

namespace OpenDeepResearch

/-- Status of a report section's research work (spec §3):
pending, researching, complete, failed. -/
inductive SectionStatus
  | pending
  | researching
  | complete
  | failed
deriving DecidableEq, Repr

/-- Terminal statuses (spec §3): complete and failed. -/
def SectionStatus.isTerminal : SectionStatus → Bool
  | .complete => true
  | .failed => true
  | _ => false

/-- A Plan entry: section name, one-line research intent, and the
requires-research flag (spec §3, Plan). -/
structure SectionStub where
  name : String
  intent : String
  requiresResearch : Bool
deriving DecidableEq, Repr

/-- A Plan is an ordered sequence of Section stubs (spec §3). -/
abbrev Plan := List SectionStub

/-- A retrieved search result with provenance (spec §6, Search Provider:
title, url/id, snippet). -/
structure Source where
  title : String
  url : String
  snippet : String
deriving DecidableEq, Repr

/-- Unit of research work (spec §3, Section): name/intent/flag stub, ordinal
position, accumulated source material, nullable draft, iteration count,
status. -/
structure Section where
  stub : SectionStub
  ordinal : Nat
  sources : List Source
  draft : Option String
  iterations : Nat
  status : SectionStatus
deriving DecidableEq, Repr

/-- Modelled from the spec: the Completion Provider capability (spec §6) as a
fixed pure response table — the claims all quantify over "identical provider
responses", and the concrete LLM backend is outside the repository sources.
`planFor` parses a plan from topic, optional custom structure, and optional
(feedback text, prior plan); `queries` formulates search queries from a
section stub and gathered material; `synthesize` extends a draft; `grade`
decides sufficiency; `writeStructural` writes a structural section from the
assembled research content. -/
structure CompletionProvider where
  planFor : String → Option String → Option (String × Plan) → Option Plan
  queries : SectionStub → List Source → List String
  synthesize : SectionStub → List Source → Option String → String
  grade : SectionStub → String → Nat → Bool
  writeStructural : SectionStub → String → String

/-- Modelled from the spec: the Search Provider capability (spec §6),
a fixed pure response table from query to ranked results. -/
structure SearchProvider where
  search : String → List Source

/-- The documented policy choice for a Section that exhausts max search depth
without sufficiency (spec §4.2 and Open Questions): best-effort complete or
failed. -/
inductive DepthExhaustedPolicy
  | bestEffortComplete
  | markFailed
deriving DecidableEq, Repr

/-- Run configuration (spec §3): max research depth, depth-exhausted policy,
optional custom report structure.  Backend/model selection is carried by the
provider values themselves. -/
structure RunConfig where
  maxSearchDepth : Nat
  depthPolicy : DepthExhaustedPolicy
  reportStructure : Option String
deriving DecidableEq, Repr

/-- Top-level lifecycle phases of the Orchestration State Machine
(spec §4.3). -/
inductive Phase
  | planning
  | awaiting_feedback
  | approved
  | researching
  | compiling
  | done
  | error
deriving DecidableEq, Repr

/-- Error taxonomy (spec §7). -/
inductive RunError
  | planGenerationFailure
  | invalidResume
  | incompleteSections
deriving DecidableEq, Repr

/-- A Feedback Signal (spec §3): an approval token or free-text revision
guidance. -/
inductive FeedbackSignal
  | approve
  | revise (text : String)
deriving DecidableEq, Repr

/-- Observable events of a run: phase entries, interrupt emissions carrying
the Plan payload, plan generations (recording the feedback they were
conditioned on), and individual provider calls. -/
inductive TraceEvent
  | phaseEntered (p : Phase)
  | interruptEmitted (payload : Plan)
  | planGenerated (feedback : Option String) (p : Plan)
  | searchCall (query : String)
  | completionCall (tag : String)
deriving DecidableEq, Repr

/-- Modelled from the spec: the Plan Stage contract
`generatePlan(topic, customStructure?, feedback?) → Plan` (spec §4.1); the
graph's planner node is not among the repository sources.  A missing or
unparseable (here: empty) provider response is a `PlanGenerationFailure`. -/
def generatePlan (cp : CompletionProvider) (topic : String)
    (customStructure : Option String) (feedback : Option (String × Plan)) :
    Except RunError Plan :=
  match cp.planFor topic customStructure feedback with
  | none => .error .planGenerationFailure
  | some p => if p = [] then .error .planGenerationFailure else .ok p

/-- Fresh Section records for a Plan, ordinals assigned in plan order
starting from `i`. -/
def instantiateFrom (i : Nat) : Plan → List Section
  | [] => []
  | stub :: rest =>
    { stub := stub, ordinal := i, sources := [], draft := none,
      iterations := 0, status := .pending } :: instantiateFrom (i + 1) rest

/-- Fresh Section records for a Plan: one per stub, unique ordinals in plan
order (spec §3 invariant). -/
def instantiateSections (p : Plan) : List Section := instantiateFrom 0 p

/-- Append one search result unless a source with the same URL is already
gathered (spec §4.2: deduplicate by source identifier/URL). -/
def addSource (acc : List Source) (r : Source) : List Source :=
  if acc.any fun e => e.url == r.url then acc else acc ++ [r]

/-- Merge new search results into the gathered provenance, deduplicating by
URL (spec §4.2, append-only source list). -/
def gatherSources (existing : List Source) (results : List Source) :
    List Source :=
  results.foldl addSource existing

/-- Result of one research iteration: the mutated Section, the sufficiency
grade, and the provider calls it made. -/
structure IterationOut where
  sec : Section
  sufficient : Bool
  events : List TraceEvent
deriving Repr

/-- Modelled from the spec: one Research Loop iteration (spec §4.2):
(1) formulate queries from intent and gathered material, (2) search per query
and deduplicate by URL, (3) synthesize/extend the draft (replace-on-write),
(4) grade sufficiency.  The iteration count increments by one. -/
def researchIteration (cp : CompletionProvider) (sp : SearchProvider)
    (sec : Section) : IterationOut :=
  let qs := cp.queries sec.stub sec.sources
  let results := (qs.map sp.search).flatten
  let srcs := gatherSources sec.sources results
  let draft := cp.synthesize sec.stub srcs sec.draft
  { sec := { sec with
      sources := srcs,
      draft := some draft,
      iterations := sec.iterations + 1,
      status := .researching },
    sufficient := cp.grade sec.stub draft (sec.iterations + 1),
    events := qs.map TraceEvent.searchCall ++
      [TraceEvent.completionCall "synthesize",
       TraceEvent.completionCall "grade"] }

/-- Terminal status taken when max depth is exhausted without sufficiency,
per the configured policy (spec §4.2 and Open Questions). -/
def exhaustStatus : DepthExhaustedPolicy → SectionStatus
  | .bestEffortComplete => .complete
  | .markFailed => .failed

/-- Result of running the Research Loop on one Section: the final Section,
the provider calls made, and the statuses observed after each transition. -/
structure SectionRun where
  sec : Section
  events : List TraceEvent
  statuses : List SectionStatus
deriving Repr

/-- Modelled from the spec: the bounded Research Loop body (spec §4.2).  The
first argument is the remaining depth; it decreases on every self-loop, so
the loop always terminates.  With no depth remaining the Section takes the
policy's terminal status; a sufficient iteration ends in complete; an
insufficient one self-loops on researching. -/
def runLoop (cp : CompletionProvider) (sp : SearchProvider)
    (pol : DepthExhaustedPolicy) : Nat → Section → SectionRun
  | 0, sec =>
    { sec := { sec with status := exhaustStatus pol }, events := [],
      statuses := [exhaustStatus pol] }
  | n + 1, sec =>
    let it := researchIteration cp sp sec
    if it.sufficient then
      { sec := { it.sec with status := .complete }, events := it.events,
        statuses := [SectionStatus.complete] }
    else
      let r := runLoop cp sp pol n it.sec
      { sec := r.sec, events := it.events ++ r.events,
        statuses := SectionStatus.researching :: r.statuses }

/-- Modelled from the spec: the full Research Loop on one Section, from the
start transition (pending → researching) to a terminal status (spec §4.2). -/
def researchSectionRun (cp : CompletionProvider) (sp : SearchProvider)
    (cfg : RunConfig) (sec : Section) : SectionRun :=
  let r := runLoop cp sp cfg.depthPolicy cfg.maxSearchDepth
    { sec with status := .researching }
  { sec := r.sec, events := r.events,
    statuses := SectionStatus.researching :: r.statuses }

/-- The statuses a Section passes through when researched: its initial
status, then each status taken by the Research Loop. -/
def sectionTrace (cp : CompletionProvider) (sp : SearchProvider)
    (cfg : RunConfig) (sec : Section) : List SectionStatus :=
  sec.status :: (researchSectionRun cp sp cfg sec).statuses

/-- The section status transition relation of spec §4.2: pending starts into
researching; researching self-loops or finishes as complete or failed; no
transition is skipped or reversed. -/
def stepAllowed : SectionStatus → SectionStatus → Bool
  | .pending, .researching => true
  | .researching, .researching => true
  | .researching, .complete => true
  | .researching, .failed => true
  | _, _ => false

/-- A status history is valid when every consecutive pair follows the
spec §4.2 transition relation. -/
def ValidChain (l : List SectionStatus) : Prop :=
  List.Chain' (fun a b => stepAllowed a b = true) l

/-- Fan-out on one Section (spec §4.3): a requires-research Section runs its
own Research Loop instance; a structural Section is left untouched. -/
def researchIfRequired (cp : CompletionProvider) (sp : SearchProvider)
    (cfg : RunConfig) (sec : Section) : Section :=
  if sec.stub.requiresResearch then (researchSectionRun cp sp cfg sec).sec
  else sec

/-- Provider calls made while researching one Section of the fan-out. -/
def researchEventsOf (cp : CompletionProvider) (sp : SearchProvider)
    (cfg : RunConfig) (sec : Section) : List TraceEvent :=
  if sec.stub.requiresResearch then (researchSectionRun cp sp cfg sec).events
  else []

/-- Modelled from the spec: the researching-phase fan-out over all Sections
(spec §4.3); each Section is mutated only by its own Research Loop
instance. -/
def fanOutSections (cp : CompletionProvider) (sp : SearchProvider)
    (cfg : RunConfig) (secs : List Section) : List Section :=
  secs.map (researchIfRequired cp sp cfg)

/-- Provider calls made over the whole fan-out, in section order. -/
def fanOutEvents (cp : CompletionProvider) (sp : SearchProvider)
    (cfg : RunConfig) (secs : List Section) : List TraceEvent :=
  (secs.map (researchEventsOf cp sp cfg)).flatten

/-- The compiling barrier condition (spec §4.3): every requires-research
Section has a terminal status. -/
def allReqTerminal (secs : List Section) : Bool :=
  secs.all fun s => !s.stub.requiresResearch || s.status.isTerminal

/-- The assembled research content used as context for structural sections
(spec §4.4). -/
def researchContent (secs : List Section) : String :=
  String.intercalate "\n\n"
    ((secs.filter fun s => s.stub.requiresResearch).map fun s => s.draft.getD "")

/-- Body text of one section in the final document (spec §4.4): a researched
section contributes its draft; a structural section is written by one more
completion call over the research content. -/
def sectionBody (cp : CompletionProvider) (ctx : String) (s : Section) :
    String :=
  if s.stub.requiresResearch then s.draft.getD ""
  else cp.writeStructural s.stub ctx

/-- Deterministic concatenation of all sections; the Sections list is kept in
ordinal order by construction (spec §4.4). -/
def assembleDoc (cp : CompletionProvider) (secs : List Section) : String :=
  String.intercalate "\n\n" (secs.map (sectionBody cp (researchContent secs)))

/-- The completion calls the assembler makes: one per structural section
(spec §4.4). -/
def assembleEvents (secs : List Section) : List TraceEvent :=
  (secs.filter fun s => !s.stub.requiresResearch).map fun _ =>
    TraceEvent.completionCall "structural"

/-- Modelled from the spec: the Report Assembler `assemble(Run) → Document`
(spec §4.4): concatenates sections in ordinal order, writes structural
sections from the assembled research content, and fails with
IncompleteSectionsError when a required section has no content at all. -/
def assemble (cp : CompletionProvider) (secs : List Section) :
    Except RunError (String × List TraceEvent) :=
  if (secs.filter fun s => s.stub.requiresResearch).all
      fun s => s.draft.isSome then
    .ok (assembleDoc cp secs, assembleEvents secs)
  else
    .error .incompleteSections

/-- A Run's mutable state (spec §3): topic, current Plan, Section records,
lifecycle phase, the stored final_report, and the pending interrupt payload
(the Plan awaiting feedback), if any. -/
structure RunState where
  topic : String
  plan : Plan
  sections : List Section
  phase : Phase
  finalReport : Option String
  pendingInterrupt : Option Plan
deriving DecidableEq, Repr

/-- One observable step of the Orchestration State Machine: the state after
the step, the events emitted during it, and the error surfaced, if any. -/
structure StepOut where
  state : RunState
  events : List TraceEvent
  err : Option RunError
deriving DecidableEq, Repr

/-- Modelled from the spec: starting a Run (spec §4.3): enter planning,
generate the Plan, then suspend at awaiting_feedback carrying the Plan as the
interrupt payload; a PlanGenerationFailure moves the Run to the error
state. -/
def startRun (cp : CompletionProvider) (cfg : RunConfig) (topic : String) :
    StepOut :=
  match generatePlan cp topic cfg.reportStructure none with
  | .error e =>
    { state := {
        topic := topic,
        plan := [],
        sections := [],
        phase := .error,
        finalReport := none,
        pendingInterrupt := none },
      events := [.phaseEntered .planning, .phaseEntered .error],
      err := some e }
  | .ok p =>
    { state := {
        topic := topic,
        plan := p,
        sections := instantiateSections p,
        phase := .awaiting_feedback,
        finalReport := none,
        pendingInterrupt := some p },
      events := [.phaseEntered .planning, .planGenerated none p,
        .phaseEntered .awaiting_feedback, .interruptEmitted p],
      err := none }

/-- Modelled from the spec: a revision resume (spec §4.3): back to planning
with the feedback bound, wholesale regeneration conditioned on the feedback
text and the prior Plan (spec §4.1), then suspend again carrying the new
Plan. -/
def replan (cp : CompletionProvider) (cfg : RunConfig) (fb : String)
    (priorPlan : Plan) (st : RunState) : StepOut :=
  match generatePlan cp st.topic cfg.reportStructure (some (fb, priorPlan)) with
  | .error e =>
    { state := { st with phase := .error, pendingInterrupt := none },
      events := [.phaseEntered .planning, .phaseEntered .error],
      err := some e }
  | .ok p2 =>
    { state := { st with
        plan := p2,
        sections := instantiateSections p2,
        phase := .awaiting_feedback,
        pendingInterrupt := some p2 },
      events := [.phaseEntered .planning, .planGenerated (some fb) p2,
        .phaseEntered .awaiting_feedback, .interruptEmitted p2],
      err := none }

/-- Modelled from the spec: an approval resume (spec §4.3, §4.4): move to
approved, fan out one Research Loop per requires-research Section, join at
the compiling barrier, assemble, store the Document as final_report and
finish in done; an assembly failure moves the Run to the error state. -/
def approveAndRun (cp : CompletionProvider) (sp : SearchProvider)
    (cfg : RunConfig) (st : RunState) : StepOut :=
  match assemble cp (fanOutSections cp sp cfg st.sections) with
  | .error e =>
    { state := { st with
        sections := fanOutSections cp sp cfg st.sections,
        phase := .error,
        pendingInterrupt := none },
      events := [.phaseEntered .approved, .phaseEntered .researching] ++
        fanOutEvents cp sp cfg st.sections ++
        [.phaseEntered .compiling, .phaseEntered .error],
      err := some e }
  | .ok pr =>
    { state := { st with
        sections := fanOutSections cp sp cfg st.sections,
        phase := .done,
        finalReport := some pr.1,
        pendingInterrupt := none },
      events := [.phaseEntered .approved, .phaseEntered .researching] ++
        fanOutEvents cp sp cfg st.sections ++
        [.phaseEntered .compiling] ++ pr.2 ++ [.phaseEntered .done],
      err := none }

/-- Modelled from the spec: `resume(runId, FeedbackSignal)` (spec §4.3, §6,
§7): with no pending interrupt the call is an InvalidResumeError rejected
without mutating state; otherwise a revision Feedback Signal loops back to
planning and an approval runs research and compilation. -/
def resumeRun (cp : CompletionProvider) (sp : SearchProvider)
    (cfg : RunConfig) (sig : FeedbackSignal) (st : RunState) : StepOut :=
  match st.pendingInterrupt with
  | none => { state := st, events := [], err := some .invalidResume }
  | some priorPlan =>
    match sig with
    | .revise fb => replan cp cfg fb priorPlan st
    | .approve => approveAndRun cp sp cfg st

/-- Modelled from the spec: `getResult(runId) → Document | none`
(spec §6). -/
def getResult (st : RunState) : Option String := st.finalReport

/-- Modelled from the spec: a persisted Checkpoint capturing Run, Plan, all
Sections and phase, sufficient for exact resumption (spec §3, §6). -/
structure Checkpoint where
  ckTopic : String
  ckPlan : Plan
  ckSections : List Section
  ckPhase : Phase
  ckFinalReport : Option String
  ckPendingInterrupt : Option Plan
deriving DecidableEq, Repr

/-- Persist the current Run state into a Checkpoint. -/
def takeCheckpoint (st : RunState) : Checkpoint :=
  { ckTopic := st.topic, ckPlan := st.plan, ckSections := st.sections,
    ckPhase := st.phase, ckFinalReport := st.finalReport,
    ckPendingInterrupt := st.pendingInterrupt }

/-- Rebuild a Run state from a persisted Checkpoint. -/
def restoreCheckpoint (c : Checkpoint) : RunState :=
  { topic := c.ckTopic, plan := c.ckPlan, sections := c.ckSections,
    phase := c.ckPhase, finalReport := c.ckFinalReport,
    pendingInterrupt := c.ckPendingInterrupt }

/-- A run driven straight through its suspend point: start, then resume on
the in-memory state.  Returns the final state and the full event log. -/
def uninterruptedRun (cp : CompletionProvider) (sp : SearchProvider)
    (cfg : RunConfig) (topic : String) (sig : FeedbackSignal) :
    RunState × List TraceEvent :=
  ((resumeRun cp sp cfg sig (startRun cp cfg topic).state).state,
   (startRun cp cfg topic).events ++
     (resumeRun cp sp cfg sig (startRun cp cfg topic).state).events)

/-- The same run, but the state is persisted to a Checkpoint at the suspend
point and resumption happens on the restored state. -/
def checkpointedRun (cp : CompletionProvider) (sp : SearchProvider)
    (cfg : RunConfig) (topic : String) (sig : FeedbackSignal) :
    RunState × List TraceEvent :=
  ((resumeRun cp sp cfg sig
      (restoreCheckpoint (takeCheckpoint (startRun cp cfg topic).state))).state,
   (startRun cp cfg topic).events ++
     (resumeRun cp sp cfg sig
       (restoreCheckpoint (takeCheckpoint (startRun cp cfg topic).state))).events)

/-- Run states reachable through the control surface (spec §6): one start
followed by any sequence of resume calls. -/
inductive ReachableRun (cp : CompletionProvider) (sp : SearchProvider)
    (cfg : RunConfig) (topic : String) : RunState → Prop
  | start : ReachableRun cp sp cfg topic (startRun cp cfg topic).state
  | resume (sig : FeedbackSignal) (st : RunState) :
      ReachableRun cp sp cfg topic st →
      ReachableRun cp sp cfg topic (resumeRun cp sp cfg sig st).state

/-- The phases entered, in order, over an event log. -/
def phasesOf (evs : List TraceEvent) : List Phase :=
  evs.filterMap fun e =>
    match e with
    | .phaseEntered p => some p
    | _ => none

/-- The interrupt payloads emitted, in order, over an event log. -/
def interruptsOf (evs : List TraceEvent) : List Plan :=
  evs.filterMap fun e =>
    match e with
    | .interruptEmitted p => some p
    | _ => none

/-- The plan generations performed, in order, each with the feedback it was
conditioned on. -/
def planGensOf (evs : List TraceEvent) : List (Option String × Plan) :=
  evs.filterMap fun e =>
    match e with
    | .planGenerated f p => some (f, p)
    | _ => none

/-- Whether an event is a bare provider call (search or completion). -/
def isCall : TraceEvent → Bool
  | .searchCall _ => true
  | .completionCall _ => true
  | _ => false

/-- Modelled from the spec: an abstract view of a Run during the researching
phase, for the barrier property (spec §4.3, §5): one (requires-research flag,
status) pair per fanned-out Section, plus the machine phase. -/
structure BarrierState where
  bsecs : List (Bool × SectionStatus)
  bphase : Phase
deriving DecidableEq, Repr

/-- The barrier condition on the abstract view: every requires-research entry
is terminal. -/
def allReqTerminalB (s : BarrierState) : Bool :=
  s.bsecs.all fun p => !p.1 || p.2.isTerminal

/-- Modelled from the spec: interleaved execution during the researching
phase (spec §4.3, §5).  Any Section may take any spec §4.2 status transition
at any time, in any order; the join to compiling is enabled exactly when the
barrier condition holds.  No step leaves compiling. -/
inductive BStep : BarrierState → BarrierState → Prop
  | sectionAdvance (s : BarrierState) (i : Nat) (req : Bool)
      (st st' : SectionStatus) :
      s.bphase = .researching →
      s.bsecs[i]? = some (req, st) →
      stepAllowed st st' = true →
      BStep s { s with bsecs := s.bsecs.set i (req, st') }
  | joinCompiling (s : BarrierState) :
      s.bphase = .researching →
      allReqTerminalB s = true →
      BStep s { s with bphase := .compiling }

/-- The state invariant maintained by the Orchestration State Machine: the
final_report is present exactly when the Run is done with every
requires-research Section terminal (spec §3 invariant), and a pending
interrupt exists only while suspended at awaiting_feedback (spec §4.3). -/
def RunInv (st : RunState) : Prop :=
  (st.finalReport.isSome = true ↔
    (st.phase = .done ∧ allReqTerminal st.sections = true)) ∧
  (st.pendingInterrupt.isSome = true → st.phase = .awaiting_feedback)

/-- A sample requires-research section stub, used to instantiate theorems on
concrete inputs. -/
def sampleStub : SectionStub :=
  { name := "Background", intent := "overview of the topic",
    requiresResearch := true }

/-- A sample structural (non-research) section stub. -/
def sampleStub2 : SectionStub :=
  { name := "Conclusion", intent := "wrap up", requiresResearch := false }

/-- A sample initial Plan. -/
def samplePlan : Plan := [sampleStub, sampleStub2]

/-- A sample revised Plan, as regenerated after feedback. -/
def samplePlanY : Plan :=
  [sampleStub,
   { name := "Y", intent := "about Y", requiresResearch := true },
   sampleStub2]

/-- A sample Completion Provider response table: the initial plan without
feedback, the revised plan with feedback, and a never-sufficient grader. -/
def sampleProvider : CompletionProvider :=
  { planFor := fun _ _ fb =>
      match fb with
      | none => some samplePlan
      | some _ => some samplePlanY,
    queries := fun _ _ => ["q1"],
    synthesize := fun _ _ _ => "draft text",
    grade := fun _ _ _ => false,
    writeStructural := fun _ _ => "structural text" }

/-- A sample Search Provider returning no results for any query. -/
def sampleSearch : SearchProvider := { search := fun _ => [] }

/-- A sample configuration: depth 1, best-effort completion on exhausted
depth, no custom structure. -/
def sampleConfig : RunConfig :=
  { maxSearchDepth := 1, depthPolicy := .bestEffortComplete,
    reportStructure := none }

/-- A sample Run state with no pending interrupt. -/
def sampleIdleState : RunState :=
  { topic := "t", plan := samplePlan,
    sections := instantiateSections samplePlan, phase := .planning,
    finalReport := none, pendingInterrupt := none }

/-- A sample one-section barrier state whose single required section is
already terminal. -/
def barrierInit : BarrierState :=
  { bsecs := [(true, .complete)], bphase := .researching }

end OpenDeepResearch

namespace OpenDeepResearch.ExampleUsage

/-- One event of a graph stream as consumed by the driver
(src/example_usage.py): an entry keyed __interrupt__ carrying a payload, or
an ordinary node update. -/
inductive StreamEvent
  | interruptEv (payload : String)
  | nodeUpdate (node : String)
deriving DecidableEq, Repr

/-- The value carried by Command(resume=...): the feedback text or True. -/
inductive ResumeValue
  | feedbackText (s : String)
  | approveTrue
deriving DecidableEq, Repr

/-- A command the driver issues to the compiled graph: the initial astream
with the topic, or an astream with Command(resume=...). -/
inductive GraphCmd
  | startCmd (topic : String)
  | resumeCmd (v : ResumeValue)
deriving DecidableEq, Repr

/-- The graph behaviour visible to the driver: the events of the initial
planning stream, and the final_report value read back by get_state at the
end. -/
structure GraphBehavior where
  startEvents : List StreamEvent
  finalReport : Option String

/-- Whether any event of a stream carries the __interrupt__ key
(src/example_usage.py lines 67-75 set plan_generated on the first such
event). -/
def hasInterruptEvent (evs : List StreamEvent) : Bool :=
  evs.any fun e =>
    match e with
    | .interruptEv _ => true
    | _ => false

/-- Python truthiness of an optional string: None and the empty string are
falsy. -/
def truthy : Option String → Bool
  | none => false
  | some s => !(s == "")

/-- Whether the embedded driver returned normally. -/
def resultOk : Except String String → Bool
  | .ok _ => true
  | .error _ => false

/-- Shallow embedding of conduct_deep_research (src/example_usage.py): the
returned value (ok report, or error with the raised message) paired with the
sequence of graph commands issued.  Step 1 streams the initial run and sets
plan_generated when an interrupt appears; without one it raises.  Step 2
resumes with the feedback only when feedback_on_plan is truthy and
auto_approve is false.  Step 3 resumes with True.  Step 4 reads final_report
from state and raises when it is missing or empty. -/
def conduct_deep_research (g : GraphBehavior) (topic : String)
    (feedback_on_plan : Option String) (auto_approve : Bool) :
    Except String String × List GraphCmd :=
  if hasInterruptEvent g.startEvents then
    let feedbackCmds :=
      match feedback_on_plan, auto_approve with
      | some fb, false =>
        if fb == "" then [] else [GraphCmd.resumeCmd (.feedbackText fb)]
      | _, _ => []
    let cmds := GraphCmd.startCmd topic :: feedbackCmds ++
      [GraphCmd.resumeCmd .approveTrue]
    match g.finalReport with
    | some r =>
      if r == "" then (.error "Failed to generate final report", cmds)
      else (.ok r, cmds)
    | none => (.error "Failed to generate final report", cmds)
  else
    (.error "Failed to generate report plan", [GraphCmd.startCmd topic])

/-- A sample graph behaviour: the planning stream yields one interrupt and a
non-empty final report is available at the end. -/
def sampleGraph : GraphBehavior :=
  { startEvents := [.nodeUpdate "generate_report_plan", .interruptEv "plan"],
    finalReport := some "report" }

end OpenDeepResearch.ExampleUsage

namespace OpenDeepResearch

/-! ### Theorems -/

theorem instantiateFrom_map_ordinal (i : Nat) (p : Plan) :
    (instantiateFrom i p).map Section.ordinal = List.range' i p.length := by
  induction p generalizing i with
  | nil => rfl
  | cons s rest ih => simp [instantiateFrom, List.range', ih]

/-- C8: `generatePlan` only ever returns a non-empty ordered Plan, two
invocations with identical feedback and identical provider responses return
structurally equal Plans, and the Sections instantiated from a Plan carry
pairwise distinct ordinals. -/
theorem generatePlan_nonempty_deterministic (cp : CompletionProvider)
    (topic : String) (cs : Option String) (fb : Option (String × Plan))
    (p q : Plan)
    (hp : generatePlan cp topic cs fb = .ok p)
    (hq : generatePlan cp topic cs fb = .ok q) :
    p ≠ [] ∧ p = q ∧ ((instantiateSections p).map Section.ordinal).Nodup := by
  have hne : p ≠ [] := by
    unfold generatePlan at hp
    cases h : cp.planFor topic cs fb with
    | none => simp [h] at hp
    | some r =>
      simp only [h] at hp
      by_cases hr : r = []
      · simp [hr] at hp
      · simp only [if_neg hr] at hp
        cases hp
        exact hr
  refine ⟨hne, ?_, ?_⟩
  · rw [hp] at hq
    cases hq
    rfl
  · rw [instantiateSections, instantiateFrom_map_ordinal]
    exact List.nodup_range' _ _

/-- Witness for the C8 theorem: the sample provider's plan generation at a
concrete topic. -/
theorem generatePlan_nonempty_deterministic_witness :
    samplePlan ≠ [] ∧ samplePlan = samplePlan ∧
    ((instantiateSections samplePlan).map Section.ordinal).Nodup :=
  generatePlan_nonempty_deterministic sampleProvider "X" none none samplePlan
    samplePlan rfl rfl

theorem researchIteration_stub (cp : CompletionProvider) (sp : SearchProvider)
    (sec : Section) : (researchIteration cp sp sec).sec.stub = sec.stub := rfl

theorem researchIteration_iterations (cp : CompletionProvider)
    (sp : SearchProvider) (sec : Section) :
    (researchIteration cp sp sec).sec.iterations = sec.iterations + 1 := rfl

theorem researchIteration_draft (cp : CompletionProvider) (sp : SearchProvider)
    (sec : Section) : (researchIteration cp sp sec).sec.draft.isSome = true := rfl

theorem runLoop_zero (cp : CompletionProvider) (sp : SearchProvider)
    (pol : DepthExhaustedPolicy) (sec : Section) :
    runLoop cp sp pol 0 sec =
      { sec := { sec with status := exhaustStatus pol }, events := [],
        statuses := [exhaustStatus pol] } := rfl

theorem runLoop_succ (cp : CompletionProvider) (sp : SearchProvider)
    (pol : DepthExhaustedPolicy) (n : Nat) (sec : Section) :
    runLoop cp sp pol (n + 1) sec =
      if (researchIteration cp sp sec).sufficient then
        { sec := { (researchIteration cp sp sec).sec with status := .complete },
          events := (researchIteration cp sp sec).events,
          statuses := [SectionStatus.complete] }
      else
        { sec := (runLoop cp sp pol n (researchIteration cp sp sec).sec).sec,
          events := (researchIteration cp sp sec).events ++
            (runLoop cp sp pol n (researchIteration cp sp sec).sec).events,
          statuses := SectionStatus.researching ::
            (runLoop cp sp pol n (researchIteration cp sp sec).sec).statuses } := rfl

theorem runLoop_stub (cp : CompletionProvider) (sp : SearchProvider)
    (pol : DepthExhaustedPolicy) (n : Nat) (sec : Section) :
    (runLoop cp sp pol n sec).sec.stub = sec.stub := by
  induction n generalizing sec with
  | zero => rfl
  | succ n ih =>
    rw [runLoop_succ]
    by_cases h : (researchIteration cp sp sec).sufficient
    · rw [if_pos h]
      exact researchIteration_stub cp sp sec
    · rw [if_neg h]
      show (runLoop cp sp pol n (researchIteration cp sp sec).sec).sec.stub = sec.stub
      rw [ih, researchIteration_stub]

theorem runLoop_terminal (cp : CompletionProvider) (sp : SearchProvider)
    (pol : DepthExhaustedPolicy) (n : Nat) (sec : Section) :
    (runLoop cp sp pol n sec).sec.status.isTerminal = true := by
  induction n generalizing sec with
  | zero => cases pol <;> rfl
  | succ n ih =>
    rw [runLoop_succ]
    by_cases h : (researchIteration cp sp sec).sufficient
    · rw [if_pos h]
      rfl
    · rw [if_neg h]
      exact ih _

theorem runLoop_iterations (cp : CompletionProvider) (sp : SearchProvider)
    (pol : DepthExhaustedPolicy) (n : Nat) (sec : Section) :
    (runLoop cp sp pol n sec).sec.iterations ≤ sec.iterations + n := by
  induction n generalizing sec with
  | zero => exact Nat.le_refl _
  | succ n ih =>
    rw [runLoop_succ]
    by_cases h : (researchIteration cp sp sec).sufficient
    · rw [if_pos h]
      have : ({ (researchIteration cp sp sec).sec with
          status := SectionStatus.complete } : Section).iterations =
          sec.iterations + 1 := researchIteration_iterations cp sp sec
      rw [this]
      omega
    · rw [if_neg h]
      have h2 := ih (researchIteration cp sp sec).sec
      rw [researchIteration_iterations] at h2
      exact le_trans h2 (by omega)

theorem runLoop_draft_of_some (cp : CompletionProvider) (sp : SearchProvider)
    (pol : DepthExhaustedPolicy) (n : Nat) (sec : Section)
    (h : sec.draft.isSome = true) :
    (runLoop cp sp pol n sec).sec.draft.isSome = true := by
  induction n generalizing sec with
  | zero => exact h
  | succ n ih =>
    rw [runLoop_succ]
    by_cases hs : (researchIteration cp sp sec).sufficient
    · rw [if_pos hs]
      exact researchIteration_draft cp sp sec
    · rw [if_neg hs]
      exact ih _ (researchIteration_draft cp sp sec)

theorem runLoop_draft_pos (cp : CompletionProvider) (sp : SearchProvider)
    (pol : DepthExhaustedPolicy) (n : Nat) (sec : Section) (h : 1 ≤ n) :
    (runLoop cp sp pol n sec).sec.draft.isSome = true := by
  cases n with
  | zero => omega
  | succ n =>
    rw [runLoop_succ]
    by_cases hs : (researchIteration cp sp sec).sufficient
    · rw [if_pos hs]
      exact researchIteration_draft cp sp sec
    · rw [if_neg hs]
      exact runLoop_draft_of_some cp sp pol n _ (researchIteration_draft cp sp sec)

theorem runLoop_chain (cp : CompletionProvider) (sp : SearchProvider)
    (pol : DepthExhaustedPolicy) (n : Nat) (sec : Section) :
    ValidChain (SectionStatus.researching :: (runLoop cp sp pol n sec).statuses) := by
  induction n generalizing sec with
  | zero =>
    rw [runLoop_zero, ValidChain]
    refine List.chain'_cons.2 ⟨?_, List.chain'_singleton _⟩
    cases pol <;> rfl
  | succ n ih =>
    rw [runLoop_succ]
    by_cases h : (researchIteration cp sp sec).sufficient
    · rw [if_pos h, ValidChain]
      exact List.chain'_cons.2 ⟨rfl, List.chain'_singleton _⟩
    · rw [if_neg h, ValidChain]
      exact List.chain'_cons.2 ⟨rfl, ih _⟩

theorem runLoop_grade_false (cp : CompletionProvider) (sp : SearchProvider)
    (pol : DepthExhaustedPolicy) (n : Nat) (sec : Section)
    (hg : ∀ stub d i, cp.grade stub d i = false) :
    (runLoop cp sp pol n sec).sec.iterations = sec.iterations + n ∧
      (runLoop cp sp pol n sec).sec.status = exhaustStatus pol := by
  induction n generalizing sec with
  | zero => exact ⟨rfl, rfl⟩
  | succ n ih =>
    have hs : (researchIteration cp sp sec).sufficient = false := hg _ _ _
    rw [runLoop_succ, if_neg (by rw [hs]; exact Bool.false_ne_true)]
    have h2 := ih (researchIteration cp sp sec).sec
    rw [researchIteration_iterations] at h2
    exact ⟨by rw [h2.1]; omega, h2.2⟩

/-- C5: the Research Loop on a fresh Section never exceeds the configured max
search depth, always ends in a terminal status (so it never loops forever,
including when the Search Provider returns zero results for every query), its
status history follows pending → researching → \x7bcomplete, failed\x7d with
self-loops only on researching; and when the grader never reports sufficiency
(as with useless search results) it stops exactly at max depth with the
configured policy's terminal status. -/
theorem researchLoop_bounded_valid (cp : CompletionProvider)
    (sp : SearchProvider) (cfg : RunConfig) (sec : Section)
    (h0 : sec.status = .pending) (h1 : sec.iterations = 0) :
    (researchSectionRun cp sp cfg sec).sec.iterations ≤ cfg.maxSearchDepth ∧
    (researchSectionRun cp sp cfg sec).sec.status.isTerminal = true ∧
    ValidChain (sectionTrace cp sp cfg sec) ∧
    ((∀ stub d i, cp.grade stub d i = false) →
      (researchSectionRun cp sp cfg sec).sec.iterations = cfg.maxSearchDepth ∧
      (researchSectionRun cp sp cfg sec).sec.status =
        exhaustStatus cfg.depthPolicy) := by
  obtain ⟨stub, ord, srcs, draft, iters, status⟩ := sec
  replace h0 : status = SectionStatus.pending := h0
  replace h1 : iters = 0 := h1
  subst h0
  subst h1
  refine ⟨?_, ?_, ?_, ?_⟩
  · have h2 := runLoop_iterations cp sp cfg.depthPolicy cfg.maxSearchDepth
      ⟨stub, ord, srcs, draft, 0, .researching⟩
    simpa using h2
  · exact runLoop_terminal cp sp cfg.depthPolicy cfg.maxSearchDepth
      ⟨stub, ord, srcs, draft, 0, .researching⟩
  · have h2 := runLoop_chain cp sp cfg.depthPolicy cfg.maxSearchDepth
      ⟨stub, ord, srcs, draft, 0, .researching⟩
    exact List.chain'_cons.2 ⟨rfl, h2⟩
  · intro hg
    have h2 := runLoop_grade_false cp sp cfg.depthPolicy cfg.maxSearchDepth
      ⟨stub, ord, srcs, draft, 0, .researching⟩ hg
    exact ⟨by simpa using h2.1, h2.2⟩

theorem sampleGrade_false :
    ∀ stub d i, sampleProvider.grade stub d i = false :=
  fun _ _ _ => rfl

/-- Witness for the C5 theorem at a concrete pending section under the
sample providers. -/
theorem researchLoop_bounded_valid_witness :
    (researchSectionRun sampleProvider sampleSearch sampleConfig
        ⟨sampleStub, 0, [], none, 0, .pending⟩).sec.iterations ≤
      sampleConfig.maxSearchDepth ∧
    (researchSectionRun sampleProvider sampleSearch sampleConfig
        ⟨sampleStub, 0, [], none, 0, .pending⟩).sec.status.isTerminal = true ∧
    ValidChain (sectionTrace sampleProvider sampleSearch sampleConfig
        ⟨sampleStub, 0, [], none, 0, .pending⟩) ∧
    ((∀ stub d i, sampleProvider.grade stub d i = false) →
      (researchSectionRun sampleProvider sampleSearch sampleConfig
          ⟨sampleStub, 0, [], none, 0, .pending⟩).sec.iterations =
        sampleConfig.maxSearchDepth ∧
      (researchSectionRun sampleProvider sampleSearch sampleConfig
          ⟨sampleStub, 0, [], none, 0, .pending⟩).sec.status =
        exhaustStatus sampleConfig.depthPolicy) :=
  researchLoop_bounded_valid sampleProvider sampleSearch sampleConfig
    ⟨sampleStub, 0, [], none, 0, .pending⟩ rfl rfl

/-- C3: resume with no pending interrupt leaves the Run state — its phase and
every Section record — unchanged, and surfaces InvalidResumeError without
mutating anything. -/
theorem resume_no_pending_no_op (cp : CompletionProvider)
    (sp : SearchProvider) (cfg : RunConfig) (sig : FeedbackSignal)
    (st : RunState) (h : st.pendingInterrupt = none) :
    (resumeRun cp sp cfg sig st).state = st ∧
    (resumeRun cp sp cfg sig st).events = [] ∧
    (resumeRun cp sp cfg sig st).err = some RunError.invalidResume := by
  unfold resumeRun
  rw [h]
  exact ⟨rfl, rfl, rfl⟩

/-- Witness for the C3 theorem at a concrete idle Run state. -/
theorem resume_no_pending_no_op_witness :
    (resumeRun sampleProvider sampleSearch sampleConfig .approve
        sampleIdleState).state = sampleIdleState ∧
    (resumeRun sampleProvider sampleSearch sampleConfig .approve
        sampleIdleState).events = [] ∧
    (resumeRun sampleProvider sampleSearch sampleConfig .approve
        sampleIdleState).err = some RunError.invalidResume :=
  resume_no_pending_no_op sampleProvider sampleSearch sampleConfig .approve
    sampleIdleState rfl

theorem restore_takeCheckpoint (st : RunState) :
    restoreCheckpoint (takeCheckpoint st) = st := rfl

/-- C6: persisting a Checkpoint at the suspend point and resuming from the
restored state yields exactly the final state and the full event log — every
provider call included — of the uninterrupted run, so no already-completed
search or completion call is re-issued after resumption. -/
theorem checkpoint_roundtrip (cp : CompletionProvider) (sp : SearchProvider)
    (cfg : RunConfig) (topic : String) (sig : FeedbackSignal) :
    checkpointedRun cp sp cfg topic sig = uninterruptedRun cp sp cfg topic sig ∧
    (resumeRun cp sp cfg sig
        (restoreCheckpoint (takeCheckpoint (startRun cp cfg topic).state))).events =
      (resumeRun cp sp cfg sig (startRun cp cfg topic).state).events := by
  rw [checkpointedRun, uninterruptedRun, restore_takeCheckpoint]
  exact ⟨rfl, rfl⟩

theorem phasesOf_append (a b : List TraceEvent) :
    phasesOf (a ++ b) = phasesOf a ++ phasesOf b := by
  simp [phasesOf]

theorem interruptsOf_append (a b : List TraceEvent) :
    interruptsOf (a ++ b) = interruptsOf a ++ interruptsOf b := by
  simp [interruptsOf]

theorem planGensOf_append (a b : List TraceEvent) :
    planGensOf (a ++ b) = planGensOf a ++ planGensOf b := by
  simp [planGensOf]

theorem calls_project_nil (evs : List TraceEvent)
    (h : evs.all isCall = true) :
    phasesOf evs = [] ∧ interruptsOf evs = [] ∧ planGensOf evs = [] := by
  induction evs with
  | nil => exact ⟨rfl, rfl, rfl⟩
  | cons e t ih =>
    rw [List.all_cons, Bool.and_eq_true] at h
    have ht := ih h.2
    cases e with
    | phaseEntered p => exact absurd h.1 (by simp [isCall])
    | interruptEmitted p => exact absurd h.1 (by simp [isCall])
    | planGenerated f p => exact absurd h.1 (by simp [isCall])
    | searchCall q =>
      exact ⟨by simpa [phasesOf] using ht.1, by simpa [interruptsOf] using ht.2.1,
        by simpa [planGensOf] using ht.2.2⟩
    | completionCall tag =>
      exact ⟨by simpa [phasesOf] using ht.1, by simpa [interruptsOf] using ht.2.1,
        by simpa [planGensOf] using ht.2.2⟩

theorem researchIteration_events_calls (cp : CompletionProvider)
    (sp : SearchProvider) (sec : Section) :
    (researchIteration cp sp sec).events.all isCall = true := by
  show ((cp.queries sec.stub sec.sources).map TraceEvent.searchCall ++
    [TraceEvent.completionCall "synthesize",
     TraceEvent.completionCall "grade"]).all isCall = true
  rw [List.all_append, Bool.and_eq_true]
  constructor
  · rw [List.all_eq_true]
    intro x hx
    rw [List.mem_map] at hx
    obtain ⟨q, hq, rfl⟩ := hx
    rfl
  · rfl

theorem runLoop_events_calls (cp : CompletionProvider) (sp : SearchProvider)
    (pol : DepthExhaustedPolicy) (n : Nat) (sec : Section) :
    (runLoop cp sp pol n sec).events.all isCall = true := by
  induction n generalizing sec with
  | zero => rfl
  | succ n ih =>
    rw [runLoop_succ]
    by_cases h : (researchIteration cp sp sec).sufficient
    · rw [if_pos h]
      exact researchIteration_events_calls cp sp sec
    · rw [if_neg h]
      show ((researchIteration cp sp sec).events ++
        (runLoop cp sp pol n (researchIteration cp sp sec).sec).events).all
          isCall = true
      rw [List.all_append, Bool.and_eq_true]
      exact ⟨researchIteration_events_calls cp sp sec, ih _⟩

theorem researchSectionRun_events_calls (cp : CompletionProvider)
    (sp : SearchProvider) (cfg : RunConfig) (sec : Section) :
    (researchSectionRun cp sp cfg sec).events.all isCall = true :=
  runLoop_events_calls cp sp cfg.depthPolicy cfg.maxSearchDepth
    { sec with status := .researching }

theorem fanOutEvents_calls (cp : CompletionProvider) (sp : SearchProvider)
    (cfg : RunConfig) (secs : List Section) :
    (fanOutEvents cp sp cfg secs).all isCall = true := by
  induction secs with
  | nil => rfl
  | cons s t ih =>
    show ((researchEventsOf cp sp cfg s) ++
      (t.map (researchEventsOf cp sp cfg)).flatten).all isCall = true
    rw [List.all_append, Bool.and_eq_true]
    refine ⟨?_, ih⟩
    rw [researchEventsOf]
    by_cases h : s.stub.requiresResearch
    · rw [if_pos h]
      exact researchSectionRun_events_calls cp sp cfg s
    · rw [if_neg h]
      rfl

theorem assembleEvents_calls (secs : List Section) :
    (assembleEvents secs).all isCall = true := by
  rw [assembleEvents, List.all_eq_true]
  intro x hx
  rw [List.mem_map] at hx
  obtain ⟨s, hs, rfl⟩ := hx
  rfl

theorem researchSectionRun_sec (cp : CompletionProvider) (sp : SearchProvider)
    (cfg : RunConfig) (sec : Section) :
    (researchSectionRun cp sp cfg sec).sec =
      (runLoop cp sp cfg.depthPolicy cfg.maxSearchDepth
        { sec with status := .researching }).sec := rfl

theorem researchSectionRun_terminal (cp : CompletionProvider)
    (sp : SearchProvider) (cfg : RunConfig) (sec : Section) :
    (researchSectionRun cp sp cfg sec).sec.status.isTerminal = true := by
  rw [researchSectionRun_sec]
  exact runLoop_terminal cp sp cfg.depthPolicy cfg.maxSearchDepth _

theorem researchSectionRun_stub (cp : CompletionProvider)
    (sp : SearchProvider) (cfg : RunConfig) (sec : Section) :
    (researchSectionRun cp sp cfg sec).sec.stub = sec.stub := by
  rw [researchSectionRun_sec]
  exact runLoop_stub cp sp cfg.depthPolicy cfg.maxSearchDepth _

theorem researchSectionRun_draft (cp : CompletionProvider)
    (sp : SearchProvider) (cfg : RunConfig) (sec : Section)
    (h : 1 ≤ cfg.maxSearchDepth) :
    (researchSectionRun cp sp cfg sec).sec.draft.isSome = true := by
  rw [researchSectionRun_sec]
  exact runLoop_draft_pos cp sp cfg.depthPolicy cfg.maxSearchDepth _ h

theorem researchIfRequired_req_terminal (cp : CompletionProvider)
    (sp : SearchProvider) (cfg : RunConfig) (s : Section) :
    (!(researchIfRequired cp sp cfg s).stub.requiresResearch ||
      (researchIfRequired cp sp cfg s).status.isTerminal) = true := by
  rw [researchIfRequired]
  by_cases h : s.stub.requiresResearch
  · rw [if_pos h, researchSectionRun_terminal, Bool.or_true]
  · rw [if_neg h]
    have h2 : s.stub.requiresResearch = false := Bool.eq_false_iff.mpr h
    rw [h2]
    rfl

theorem allReqTerminal_fanOut (cp : CompletionProvider) (sp : SearchProvider)
    (cfg : RunConfig) (secs : List Section) :
    allReqTerminal (fanOutSections cp sp cfg secs) = true := by
  rw [allReqTerminal, List.all_eq_true]
  intro x hx
  rw [fanOutSections, List.mem_map] at hx
  obtain ⟨s, hs, rfl⟩ := hx
  exact researchIfRequired_req_terminal cp sp cfg s

theorem fanOut_drafts (cp : CompletionProvider) (sp : SearchProvider)
    (cfg : RunConfig) (secs : List Section) (hd : 1 ≤ cfg.maxSearchDepth) :
    ((fanOutSections cp sp cfg secs).filter
      fun s => s.stub.requiresResearch).all (fun s => s.draft.isSome) = true := by
  rw [List.all_eq_true]
  intro x hx
  rw [List.mem_filter] at hx
  obtain ⟨hx1, hx2⟩ := hx
  rw [fanOutSections, List.mem_map] at hx1
  obtain ⟨s, hs, rfl⟩ := hx1
  by_cases h : s.stub.requiresResearch
  · rw [researchIfRequired, if_pos h]
    exact researchSectionRun_draft cp sp cfg s hd
  · rw [researchIfRequired, if_neg h] at hx2
    exact absurd hx2 (by simpa using h)

theorem assemble_fanOut_ok (cp : CompletionProvider) (sp : SearchProvider)
    (cfg : RunConfig) (secs : List Section) (hd : 1 ≤ cfg.maxSearchDepth) :
    assemble cp (fanOutSections cp sp cfg secs) =
      .ok (assembleDoc cp (fanOutSections cp sp cfg secs),
        assembleEvents (fanOutSections cp sp cfg secs)) := by
  rw [assemble, if_pos (fanOut_drafts cp sp cfg secs hd)]

/-- C4: over every interleaving of section progress during the researching
phase, the compiling phase is entered only when every requires-research
Section is terminal, and as soon as the barrier condition holds the join to
compiling is enabled; compilation never starts while any fanned-out Section
is still non-terminal, regardless of completion order. -/
theorem compiling_barrier_iff (init s : BarrierState)
    (hinit : init.bphase = .researching)
    (hreach : Relation.ReflTransGen BStep init s) :
    (s.bphase = .compiling → allReqTerminalB s = true) ∧
    (s.bphase = .researching → allReqTerminalB s = true →
      BStep s { s with bphase := .compiling }) := by
  constructor
  · induction hreach with
    | refl =>
      intro hc
      rw [hinit] at hc
      exact absurd hc (by decide)
    | tail h1 h2 ih =>
      intro hc
      cases h2 with
      | sectionAdvance i req st st' hphase hget hallow =>
        dsimp only at hc
        rw [hphase] at hc
        exact absurd hc (by decide)
      | joinCompiling hphase hterm =>
        exact hterm
  · intro hres hterm
    exact BStep.joinCompiling s hres hterm

/-- Witness for the C4 theorem: a one-section barrier state with its required
section terminal, reachable trivially, where the join is enabled. -/
theorem compiling_barrier_iff_witness :
    ((barrierInit.bphase = Phase.compiling →
       allReqTerminalB barrierInit = true) ∧
     (barrierInit.bphase = Phase.researching →
       allReqTerminalB barrierInit = true →
       BStep barrierInit { barrierInit with bphase := .compiling })) :=
  compiling_barrier_iff barrierInit barrierInit rfl Relation.ReflTransGen.refl

theorem phasesOf_fanOutEvents (cp : CompletionProvider) (sp : SearchProvider)
    (cfg : RunConfig) (secs : List Section) :
    phasesOf (fanOutEvents cp sp cfg secs) = [] :=
  (calls_project_nil _ (fanOutEvents_calls cp sp cfg secs)).1

theorem interruptsOf_fanOutEvents (cp : CompletionProvider)
    (sp : SearchProvider) (cfg : RunConfig) (secs : List Section) :
    interruptsOf (fanOutEvents cp sp cfg secs) = [] :=
  (calls_project_nil _ (fanOutEvents_calls cp sp cfg secs)).2.1

theorem planGensOf_fanOutEvents (cp : CompletionProvider)
    (sp : SearchProvider) (cfg : RunConfig) (secs : List Section) :
    planGensOf (fanOutEvents cp sp cfg secs) = [] :=
  (calls_project_nil _ (fanOutEvents_calls cp sp cfg secs)).2.2

theorem phasesOf_assembleEvents (secs : List Section) :
    phasesOf (assembleEvents secs) = [] :=
  (calls_project_nil _ (assembleEvents_calls secs)).1

theorem interruptsOf_assembleEvents (secs : List Section) :
    interruptsOf (assembleEvents secs) = [] :=
  (calls_project_nil _ (assembleEvents_calls secs)).2.1

theorem planGensOf_assembleEvents (secs : List Section) :
    planGensOf (assembleEvents secs) = [] :=
  (calls_project_nil _ (assembleEvents_calls secs)).2.2

theorem generatePlan_ok (cp : CompletionProvider) (topic : String)
    (cs : Option String) (fb : Option (String × Plan)) (p : Plan)
    (hp : cp.planFor topic cs fb = some p) (hne : p ≠ []) :
    generatePlan cp topic cs fb = .ok p := by
  unfold generatePlan
  rw [hp]
  show (if p = [] then Except.error RunError.planGenerationFailure
    else Except.ok p) = Except.ok p
  rw [if_neg hne]

theorem startRun_ok (cp : CompletionProvider) (cfg : RunConfig)
    (topic : String) (p1 : Plan)
    (hgen : generatePlan cp topic cfg.reportStructure none = .ok p1) :
    startRun cp cfg topic =
      { state := {
          topic := topic,
          plan := p1,
          sections := instantiateSections p1,
          phase := .awaiting_feedback,
          finalReport := none,
          pendingInterrupt := some p1 },
        events := [.phaseEntered .planning, .planGenerated none p1,
          .phaseEntered .awaiting_feedback, .interruptEmitted p1],
        err := none } := by
  unfold startRun
  rw [hgen]

theorem resumeRun_approve (cp : CompletionProvider) (sp : SearchProvider)
    (cfg : RunConfig) (st : RunState) (p : Plan)
    (h : st.pendingInterrupt = some p) :
    resumeRun cp sp cfg .approve st = approveAndRun cp sp cfg st := by
  unfold resumeRun
  rw [h]

theorem resumeRun_revise (cp : CompletionProvider) (sp : SearchProvider)
    (cfg : RunConfig) (st : RunState) (p : Plan) (fb : String)
    (h : st.pendingInterrupt = some p) :
    resumeRun cp sp cfg (.revise fb) st = replan cp cfg fb p st := by
  unfold resumeRun
  rw [h]

theorem approveAndRun_eq (cp : CompletionProvider) (sp : SearchProvider)
    (cfg : RunConfig) (st : RunState) (hd : 1 ≤ cfg.maxSearchDepth) :
    approveAndRun cp sp cfg st =
      { state := { st with
          sections := fanOutSections cp sp cfg st.sections,
          phase := .done,
          finalReport :=
            some (assembleDoc cp (fanOutSections cp sp cfg st.sections)),
          pendingInterrupt := none },
        events := [.phaseEntered .approved, .phaseEntered .researching] ++
          fanOutEvents cp sp cfg st.sections ++
          [.phaseEntered .compiling] ++
          assembleEvents (fanOutSections cp sp cfg st.sections) ++
          [.phaseEntered .done],
        err := none } := by
  unfold approveAndRun
  rw [assemble_fanOut_ok cp sp cfg st.sections hd]

theorem replan_ok (cp : CompletionProvider) (cfg : RunConfig) (fb : String)
    (priorPlan : Plan) (st : RunState) (p2 : Plan)
    (hgen : generatePlan cp st.topic cfg.reportStructure
      (some (fb, priorPlan)) = .ok p2) :
    replan cp cfg fb priorPlan st =
      { state := { st with
          plan := p2,
          sections := instantiateSections p2,
          phase := .awaiting_feedback,
          pendingInterrupt := some p2 },
        events := [.phaseEntered .planning, .planGenerated (some fb) p2,
          .phaseEntered .awaiting_feedback, .interruptEmitted p2],
        err := none } := by
  unfold replan
  rw [hgen]

/-- C1: a run started with a topic and approved right after the first
interrupt emits exactly one interrupt before approval, the interrupt payload
carries the generated Plan, the approval stream emits none, and the phases
entered are exactly planning, awaiting_feedback, approved, researching,
compiling, done. -/
theorem scenario_auto_approve (cp : CompletionProvider) (sp : SearchProvider)
    (cfg : RunConfig) (topic : String) (p1 : Plan)
    (hp : cp.planFor topic cfg.reportStructure none = some p1)
    (hne : p1 ≠ []) (hd : 1 ≤ cfg.maxSearchDepth) :
    interruptsOf (startRun cp cfg topic).events = [p1] ∧
    interruptsOf
      (resumeRun cp sp cfg .approve (startRun cp cfg topic).state).events = [] ∧
    phasesOf ((startRun cp cfg topic).events ++
        (resumeRun cp sp cfg .approve (startRun cp cfg topic).state).events) =
      [.planning, .awaiting_feedback, .approved, .researching, .compiling,
       .done] := by
  have hgen := generatePlan_ok cp topic cfg.reportStructure none p1 hp hne
  have hstart := startRun_ok cp cfg topic p1 hgen
  have hres : resumeRun cp sp cfg .approve (startRun cp cfg topic).state =
      approveAndRun cp sp cfg (startRun cp cfg topic).state := by
    apply resumeRun_approve cp sp cfg _ p1
    rw [hstart]
  rw [hres, approveAndRun_eq cp sp cfg _ hd, hstart]
  refine ⟨rfl, ?_, ?_⟩
  · rw [interruptsOf_append, interruptsOf_append, interruptsOf_append,
      interruptsOf_append, interruptsOf_fanOutEvents,
      interruptsOf_assembleEvents]
    rfl
  · rw [phasesOf_append, phasesOf_append, phasesOf_append, phasesOf_append,
      phasesOf_append, phasesOf_fanOutEvents, phasesOf_assembleEvents]
    rfl

/-- Witness for the C1 theorem under the sample providers and depth-1
configuration. -/
theorem scenario_auto_approve_witness :
    interruptsOf (startRun sampleProvider sampleConfig "X").events =
      [samplePlan] ∧
    interruptsOf
      (resumeRun sampleProvider sampleSearch sampleConfig .approve
        (startRun sampleProvider sampleConfig "X").state).events = [] ∧
    phasesOf ((startRun sampleProvider sampleConfig "X").events ++
        (resumeRun sampleProvider sampleSearch sampleConfig .approve
          (startRun sampleProvider sampleConfig "X").state).events) =
      [.planning, .awaiting_feedback, .approved, .researching, .compiling,
       .done] :=
  scenario_auto_approve sampleProvider sampleSearch sampleConfig "X"
    samplePlan rfl (by decide) (by decide)

/-- C2: a run with exactly one revision Feedback Signal before approval
performs exactly two Plan generations — the first unconditioned, the second
conditioned on the feedback and the prior Plan — emits exactly two interrupts
before approval carrying the two Plans, and after the revision the Run's
Plan is exactly the regenerated Plan with its Sections rebuilt from it
wholesale, never a partial patch of the first. -/
theorem scenario_feedback_two_plans (cp : CompletionProvider)
    (sp : SearchProvider) (cfg : RunConfig) (topic : String) (fb : String)
    (p1 p2 : Plan)
    (hp1 : cp.planFor topic cfg.reportStructure none = some p1)
    (hne1 : p1 ≠ [])
    (hp2 : cp.planFor topic cfg.reportStructure (some (fb, p1)) = some p2)
    (hne2 : p2 ≠ []) :
    planGensOf ((startRun cp cfg topic).events ++
        (resumeRun cp sp cfg (.revise fb)
          (startRun cp cfg topic).state).events) =
      [(none, p1), (some fb, p2)] ∧
    interruptsOf ((startRun cp cfg topic).events ++
        (resumeRun cp sp cfg (.revise fb)
          (startRun cp cfg topic).state).events) = [p1, p2] ∧
    (resumeRun cp sp cfg (.revise fb)
      (startRun cp cfg topic).state).state.plan = p2 ∧
    (resumeRun cp sp cfg (.revise fb)
      (startRun cp cfg topic).state).state.sections =
      instantiateSections p2 := by
  have hgen1 := generatePlan_ok cp topic cfg.reportStructure none p1 hp1 hne1
  have hstart := startRun_ok cp cfg topic p1 hgen1
  have hres : resumeRun cp sp cfg (.revise fb) (startRun cp cfg topic).state =
      replan cp cfg fb p1 (startRun cp cfg topic).state := by
    apply resumeRun_revise cp sp cfg _ p1 fb
    rw [hstart]
  have htop : (startRun cp cfg topic).state.topic = topic := by
    rw [hstart]
  have hgen2 : generatePlan cp (startRun cp cfg topic).state.topic
      cfg.reportStructure (some (fb, p1)) = .ok p2 := by
    rw [htop]
    exact generatePlan_ok cp topic cfg.reportStructure (some (fb, p1)) p2
      hp2 hne2
  rw [hres, replan_ok cp cfg fb p1 (startRun cp cfg topic).state p2 hgen2,
    hstart]
  refine ⟨?_, ?_, rfl, rfl⟩
  · simp [planGensOf_append, planGensOf]
  · simp [interruptsOf_append, interruptsOf]

/-- Witness for the C2 theorem under the sample providers: the revised plan
contains the requested section Y. -/
theorem scenario_feedback_two_plans_witness :
    planGensOf ((startRun sampleProvider sampleConfig "X").events ++
        (resumeRun sampleProvider sampleSearch sampleConfig
          (.revise "add a section on Y")
          (startRun sampleProvider sampleConfig "X").state).events) =
      [(none, samplePlan), (some "add a section on Y", samplePlanY)] ∧
    interruptsOf ((startRun sampleProvider sampleConfig "X").events ++
        (resumeRun sampleProvider sampleSearch sampleConfig
          (.revise "add a section on Y")
          (startRun sampleProvider sampleConfig "X").state).events) =
      [samplePlan, samplePlanY] ∧
    (resumeRun sampleProvider sampleSearch sampleConfig
      (.revise "add a section on Y")
      (startRun sampleProvider sampleConfig "X").state).state.plan =
      samplePlanY ∧
    (resumeRun sampleProvider sampleSearch sampleConfig
      (.revise "add a section on Y")
      (startRun sampleProvider sampleConfig "X").state).state.sections =
      instantiateSections samplePlanY :=
  scenario_feedback_two_plans sampleProvider sampleSearch sampleConfig "X"
    "add a section on Y" samplePlan samplePlanY rfl (by decide) rfl (by decide)

theorem runInv_start (cp : CompletionProvider) (cfg : RunConfig)
    (topic : String) : RunInv (startRun cp cfg topic).state := by
  unfold startRun
  cases hg : generatePlan cp topic cfg.reportStructure none with
  | error e => simp [RunInv]
  | ok p => simp [RunInv]

theorem pending_finalReport_none (st : RunState) (h : RunInv st) (p : Plan)
    (hpi : st.pendingInterrupt = some p) : st.finalReport = none := by
  have hph : st.phase = .awaiting_feedback := h.2 (by rw [hpi]; rfl)
  cases hfr : st.finalReport with
  | none => rfl
  | some r =>
    have hd := h.1.mp (by rw [hfr]; rfl)
    rw [hph] at hd
    exact absurd hd.1 (by decide)

theorem runInv_resume (cp : CompletionProvider) (sp : SearchProvider)
    (cfg : RunConfig) (sig : FeedbackSignal) (st : RunState)
    (h : RunInv st) : RunInv (resumeRun cp sp cfg sig st).state := by
  cases hpi : st.pendingInterrupt with
  | none =>
    unfold resumeRun
    rw [hpi]
    exact h
  | some pp =>
    have hfr := pending_finalReport_none st h pp hpi
    cases sig with
    | revise fb =>
      rw [resumeRun_revise cp sp cfg st pp fb hpi]
      unfold replan
      cases hg : generatePlan cp st.topic cfg.reportStructure
          (some (fb, pp)) with
      | error e => simp [RunInv, hfr]
      | ok p2 => simp [RunInv, hfr]
    | approve =>
      rw [resumeRun_approve cp sp cfg st pp hpi]
      unfold approveAndRun
      cases ha : assemble cp (fanOutSections cp sp cfg st.sections) with
      | error e => simp [RunInv, hfr]
      | ok pr => simp [RunInv, allReqTerminal_fanOut]

/-- C7: in every reachable Run state, a Document is queryable under
final_report exactly when the Run has reached the done phase with every
requires-research Section terminal; in particular a Run in the error state
never returns any Document from getResult. -/
theorem final_report_iff_done (cp : CompletionProvider) (sp : SearchProvider)
    (cfg : RunConfig) (topic : String) (st : RunState)
    (h : ReachableRun cp sp cfg topic st) :
    ((getResult st).isSome = true ↔
      (st.phase = .done ∧ allReqTerminal st.sections = true)) ∧
    (st.phase = .error → getResult st = none) := by
  have hinv : RunInv st := by
    induction h with
    | start => exact runInv_start cp cfg topic
    | resume sig st2 hst ih => exact runInv_resume cp sp cfg sig st2 ih
  refine ⟨hinv.1, ?_⟩
  intro he
  cases hfr : st.finalReport with
  | none => exact hfr
  | some r =>
    have hd := hinv.1.mp (by rw [hfr]; rfl)
    rw [he] at hd
    exact absurd hd.1 (by decide)

/-- Witness for the C7 theorem at the state produced by starting a run with
the sample providers. -/
theorem final_report_iff_done_witness :
    ((getResult (startRun sampleProvider sampleConfig "t").state).isSome =
        true ↔
      ((startRun sampleProvider sampleConfig "t").state.phase = Phase.done ∧
       allReqTerminal
         (startRun sampleProvider sampleConfig "t").state.sections = true)) ∧
    ((startRun sampleProvider sampleConfig "t").state.phase = Phase.error →
      getResult (startRun sampleProvider sampleConfig "t").state = none) :=
  final_report_iff_done sampleProvider sampleSearch sampleConfig "t" _
    ReachableRun.start

end OpenDeepResearch

namespace OpenDeepResearch.ExampleUsage

theorem conduct_fst_no_interrupt (g : GraphBehavior) (topic : String)
    (fb : Option String) (auto : Bool)
    (hi : hasInterruptEvent g.startEvents = false) :
    (conduct_deep_research g topic fb auto).1 =
      .error "Failed to generate report plan" := by
  unfold conduct_deep_research
  simp [hi]

theorem conduct_fst_none (g : GraphBehavior) (topic : String)
    (fb : Option String) (auto : Bool)
    (hi : hasInterruptEvent g.startEvents = true) (hfr : g.finalReport = none) :
    (conduct_deep_research g topic fb auto).1 =
      .error "Failed to generate final report" := by
  unfold conduct_deep_research
  simp [hi, hfr]

theorem conduct_fst_empty (g : GraphBehavior) (topic : String)
    (fb : Option String) (auto : Bool) (s : String)
    (hi : hasInterruptEvent g.startEvents = true)
    (hfr : g.finalReport = some s) (hs : s = "") :
    (conduct_deep_research g topic fb auto).1 =
      .error "Failed to generate final report" := by
  unfold conduct_deep_research
  simp [hi, hfr, hs]

theorem conduct_fst_ok (g : GraphBehavior) (topic : String)
    (fb : Option String) (auto : Bool) (s : String)
    (hi : hasInterruptEvent g.startEvents = true)
    (hfr : g.finalReport = some s) (hs : ¬s = "") :
    (conduct_deep_research g topic fb auto).1 = .ok s := by
  unfold conduct_deep_research
  simp [hi, hfr, hs]

/-- C9: the driver returns a report exactly when the initial planning stream
produced at least one interrupt and the queried final state holds a
non-empty final_report; whenever either condition fails it raises instead of
returning, so a caller never receives a silently empty report. -/
theorem conduct_returns_iff (g : GraphBehavior) (topic : String)
    (fb : Option String) (auto : Bool) (r : String) :
    resultOk (conduct_deep_research g topic fb auto).1 =
      (hasInterruptEvent g.startEvents && truthy g.finalReport) ∧
    ((conduct_deep_research g topic fb auto).1 = .ok r ↔
      (hasInterruptEvent g.startEvents = true ∧ g.finalReport = some r ∧
        ¬r = "")) := by
  by_cases hi : hasInterruptEvent g.startEvents = true
  · cases hfr : g.finalReport with
    | none =>
      rw [conduct_fst_none g topic fb auto hi hfr]
      constructor
      · rw [hi]
        rfl
      · simp
    | some s =>
      by_cases hs : s = ""
      · rw [conduct_fst_empty g topic fb auto s hi hfr hs]
        constructor
        · rw [hi, hs]
          rfl
        · constructor
          · intro h
            exact absurd h (by simp)
          · rintro ⟨h1, h2, h3⟩
            injection h2 with h4
            rw [← h4] at h3
            exact absurd hs h3
      · rw [conduct_fst_ok g topic fb auto s hi hfr hs]
        constructor
        · rw [hi]
          simp [resultOk, truthy, hs]
        · constructor
          · intro h
            injection h with h2
            subst h2
            exact ⟨hi, rfl, hs⟩
          · rintro ⟨h1, h2, h3⟩
            injection h2 with h4
            subst h4
            rfl
  · rw [Bool.not_eq_true] at hi
    rw [conduct_fst_no_interrupt g topic fb auto hi]
    constructor
    · rw [hi]
      rfl
    · constructor
      · intro h
        exact absurd h (by simp)
      · rintro ⟨h1, h2, h3⟩
        rw [hi] at h1
        exact absurd h1 (by decide)

/-- C10: with auto_approve set, any supplied feedback_on_plan is silently
ignored — the commands issued to the graph are exactly the initial start and
the approval resume, with no feedback resume, and the whole call behaves
identically to one with no feedback at all. -/
theorem auto_approve_ignores_feedback (g : GraphBehavior) (topic : String)
    (fb : Option String) (h : hasInterruptEvent g.startEvents = true) :
    (conduct_deep_research g topic fb true).2 =
      [GraphCmd.startCmd topic, GraphCmd.resumeCmd .approveTrue] ∧
    conduct_deep_research g topic fb true =
      conduct_deep_research g topic none true := by
  constructor
  · unfold conduct_deep_research
    rw [if_pos h]
    cases fb with
    | none =>
      cases hfr : g.finalReport with
      | none => simp
      | some s => by_cases hs : s == "" <;> simp [hs]
    | some f =>
      cases hfr : g.finalReport with
      | none => simp
      | some s => by_cases hs : s == "" <;> simp [hs]
  · cases fb with
    | none => rfl
    | some f => rfl

/-- Witness for the C10 theorem on the sample graph behaviour. -/
theorem auto_approve_ignores_feedback_witness :
    (conduct_deep_research sampleGraph "t" (some "add a section on Y")
        true).2 =
      [GraphCmd.startCmd "t", GraphCmd.resumeCmd .approveTrue] ∧
    conduct_deep_research sampleGraph "t" (some "add a section on Y") true =
      conduct_deep_research sampleGraph "t" none true :=
  auto_approve_ignores_feedback sampleGraph "t" (some "add a section on Y")
    rfl

end OpenDeepResearch.ExampleUsage
